import Mathlib

/-!
A shallow embedding of the csvh CSV-processing tool (src/csvh.py, with
src/csv2.py as a near-duplicate variant), covering the parts exercised by
the claims: dialect resolution (read_dialect), prolog splitting
(filter_prolog), column selection (read_cols), row filtering (keep_row,
skip_row, filter_rows), column projection (filter_cols) and the pipeline
driver (process_csv).

Modelling conventions:
- A text stream is a list of lines, each line including its terminator,
  exactly as Python's readline yields them; readline at end-of-file
  returns the empty string.
- Python dicts with string keys (rows, row filters) are association
  lists in insertion order; the tool assumes unique keys (spec section 3).
- Fallible Python code (raise KeyError / ValueError) returns Except.
- The stdlib csv module is a collaborator.  Its reader is modelled as
  splitting a line on the dialect's delimiter (quote handling is not
  exercised by any claim); blank lines are skipped as csv.reader does;
  short rows are padded like DictReader's restval (modelled as "").
  The writer renders a record by joining fields with the dialect's
  delimiter and appending the dialect's line terminator (QUOTE_MINIMAL
  on delimiter-free fields emits them verbatim).
-/

namespace Csvh

/-- A csv.Dialect value object: the attribute set of Python's csv.Dialect.
`quoting` uses the stdlib encoding QUOTE_MINIMAL = 0, QUOTE_ALL = 1,
QUOTE_NONNUMERIC = 2, QUOTE_NONE = 3. -/
structure Dialect where
  delimiter : String
  quotechar : Option String
  escapechar : Option String
  doublequote : Bool
  skipinitialspace : Bool
  lineterminator : String
  quoting : Nat
deriving DecidableEq

/-- csv.excel, the stdlib default dialect. -/
def excel : Dialect :=
  { delimiter := ","
    quotechar := some "\""
    escapechar := none
    doublequote := true
    skipinitialspace := false
    lineterminator := "\r\n"
    quoting := 0 }

/-- csv.excel_tab: excel with a tab delimiter. -/
def excel_tab : Dialect := { excel with delimiter := "\t" }

/-- csv.unix_dialect: newline terminator and QUOTE_ALL. -/
def unix_dialect : Dialect := { excel with lineterminator := "\n", quoting := 1 }

/-- Python truthiness of an optional string argument: `if s:` is true
iff the argument was provided and is non-empty. -/
def optStrTruthy : Option String → Bool
  | none => false
  | some s => s != ""

/-- Python truthiness of an optional integer argument: `if n:` is true
iff the argument was provided and is nonzero. -/
def optNatTruthy : Option Nat → Bool
  | none => false
  | some n => n != 0

/-- csvh.read_dialect: modify a base dialect with the parameters that were
given.  Each of the four `if` statements in the source tests Python
truthiness of the corresponding argument, so an argument that is absent
(None) or falsy (empty string, quoting 0) leaves the base value. -/
def read_dialect (dialect : Dialect) (delimiter : Option String)
    (quoting : Option Nat) (quotechar : Option String)
    (escapechar : Option String) : Dialect :=
  let d1 := if optStrTruthy delimiter then
    { dialect with delimiter := delimiter.getD "" } else dialect
  let d2 := if optNatTruthy quoting then
    { d1 with quoting := quoting.getD 0 } else d1
  let d3 := if optStrTruthy quotechar then
    { d2 with quotechar := some (quotechar.getD "") } else d2
  let d4 := if optStrTruthy escapechar then
    { d3 with escapechar := some (escapechar.getD "") } else d3
  d4

/-- An input stream: the remaining lines, each including its terminator.
A real text stream never contains an empty-string line (an empty line
reads as a lone terminator). -/
abbrev TextStream := List String

/-- Python TextIO.readline: the next line, or the empty string at
end-of-file; returns the line and the advanced stream. -/
def readline : TextStream → String × TextStream
  | [] => ("", [])
  | l :: ls => (l, ls)

/-- The loop body of csvh.filter_prolog, iterated a given number of
times: each iteration reads a line and, when keep_prolog is truthy,
appends it to the prolog list. -/
def filter_prolog_go (input : TextStream) (keep_prolog : Nat) :
    Nat → List String × TextStream
  | 0 => ([], input)
  | n + 1 =>
    let r := readline input
    let rest := filter_prolog_go r.2 keep_prolog n
    (if keep_prolog != 0 then r.1 :: rest.1 else rest.1, rest.2)

/-- csvh.filter_prolog: read max(keep_prolog, skip_prolog) lines from the
front of the stream, returning the kept lines (all of them when
keep_prolog is truthy, none otherwise) and the advanced stream. -/
def filter_prolog (input : TextStream) (keep_prolog skip_prolog : Nat) :
    List String × TextStream :=
  filter_prolog_go input keep_prolog (max keep_prolog skip_prolog)

/-- The errors raised by the embedded code: KeyError from the read_cols
precondition loops (carrying which list, the index and the column that
the source logs at error level on the raise), KeyError from a dict
lookup of an absent column, and ValueError from csv.DictWriter on a row
holding a field not among the writer's fieldnames. -/
inductive CsvhError where
  | unknownColumn (isKeep : Bool) (idx : Nat) (col : String)
  | missingField (col : String)
  | valueError
deriving DecidableEq

/-- The precondition loops of csvh.read_cols: the first (index, column)
of the given list whose column is not among the input columns. -/
def findAbsentFrom (input_cols : List String) :
    Nat → List String → Option (Nat × String)
  | _, [] => none
  | i, c :: cs =>
    if input_cols.contains c then findAbsentFrom input_cols (i + 1) cs
    else some (i, c)

/-- csvh.read_cols: list the columns to keep.  After the precondition
loops (raise KeyError on a keep or skip name absent from the input
columns), start from the input columns, filter to membership in
keep_cols when keep_cols is non-empty, then filter out membership in
skip_cols when skip_cols is non-empty. -/
def read_cols (input_cols keep_cols skip_cols : List String) :
    Except CsvhError (List String) :=
  match findAbsentFrom input_cols 0 keep_cols with
  | some p => .error (.unknownColumn true p.1 p.2)
  | none =>
    match findAbsentFrom input_cols 0 skip_cols with
    | some p => .error (.unknownColumn false p.1 p.2)
    | none =>
      let kept1 := input_cols
      let kept2 := if keep_cols.isEmpty then kept1
        else kept1.filter (fun c => keep_cols.contains c)
      let kept3 := if skip_cols.isEmpty then kept2
        else kept2.filter (fun c => !skip_cols.contains c)
      .ok kept3

/-- A parsed row: a Python dict from column name to string value, as an
association list in insertion order with unique keys. -/
abbrev Row := List (String × String)

/-- Python dict lookup row[col], as an Option. -/
def rowGet (row : Row) (col : String) : Option String :=
  (row.find? (fun p => p.1 == col)).map (fun p => p.2)

/-- csvh.keep_row: whether to keep a row given the keep row-filters.
Iterates the filters in order; a column absent from the row raises
KeyError (missingField); a value outside the allowed list returns False
immediately. -/
def keep_row (row : Row) : List (String × List String) → Except CsvhError Bool
  | [] => .ok true
  | (col, values) :: rest =>
    match rowGet row col with
    | none => .error (.missingField col)
    | some v => if values.contains v then keep_row row rest else .ok false

/-- csvh.skip_row: whether to keep a row given the skip row-filters.
Iterates the filters in order; a column absent from the row raises
KeyError (missingField); a value inside the disallowed list returns
False immediately. -/
def skip_row (row : Row) : List (String × List String) → Except CsvhError Bool
  | [] => .ok true
  | (col, values) :: rest =>
    match rowGet row col with
    | none => .error (.missingField col)
    | some v => if values.contains v then .ok false else skip_row row rest

/-- csvh.filter_rows applied to a finite row list: the rows for which
keep_row and skip_row (short-circuit conjunction, in that order) both
hold; the first raised error aborts. -/
def filter_rows (input_rows : List Row)
    (keep_rows skip_rows : List (String × List String)) :
    Except CsvhError (List Row) :=
  match input_rows with
  | [] => .ok []
  | r :: rs =>
    match keep_row r keep_rows with
    | .error e => .error e
    | .ok false => filter_rows rs keep_rows skip_rows
    | .ok true =>
      match skip_row r skip_rows with
      | .error e => .error e
      | .ok false => filter_rows rs keep_rows skip_rows
      | .ok true => (filter_rows rs keep_rows skip_rows).map (fun l => r :: l)

/-- The dict comprehension of csvh.filter_cols, over the kept columns in
order; a column absent from the row raises KeyError. -/
def filter_cols_go (row : Row) : List String → Except CsvhError Row
  | [] => .ok []
  | c :: cs =>
    match rowGet row c with
    | none => .error (.missingField c)
    | some v => (filter_cols_go row cs).map (fun r => (c, v) :: r)

/-- csvh.filter_cols: restrict a row to the columns in keep_cols; when
keep_cols is empty (Python falsy) the row is returned unchanged. -/
def filter_cols (row : Row) (keep_cols : List String) : Except CsvhError Row :=
  match keep_cols with
  | [] => .ok row
  | _ => filter_cols_go row keep_cols

/-- Strip one trailing line terminator, as csv's line handling does
before splitting a line into fields. -/
def stripNewline (s : String) : String :=
  match s.data.reverse with
  | '\n' :: '\r' :: rest => String.mk rest.reverse
  | '\n' :: rest => String.mk rest.reverse
  | _ => s

/-- Split a character list on a delimiter character, accumulating the
current field in reverse. -/
def splitFields (delim : Char) : List Char → List Char → List String
  | [], acc => [String.mk acc.reverse]
  | c :: cs, acc =>
    if c = delim then String.mk acc.reverse :: splitFields delim cs []
    else splitFields delim cs (c :: acc)

/-- The csv reader collaborator on one line: strip the terminator and
split on the dialect's (single-character) delimiter.  Quote handling is
not exercised by any claim and is not modelled. -/
def parseRecord (d : Dialect) (line : String) : List String :=
  splitFields (d.delimiter.data.headD ',') (stripNewline line).data []

/-- Join a record's fields with the dialect's delimiter. -/
def joinRecord (delim : String) : List String → String
  | [] => ""
  | [f] => f
  | f :: fs => f ++ delim ++ joinRecord delim fs

/-- The csv writer collaborator on one record: fields joined by the
dialect's delimiter, followed by the dialect's line terminator.
QUOTE_MINIMAL on delimiter-free fields writes them verbatim. -/
def renderRecord (d : Dialect) (fields : List String) : String :=
  joinRecord d.delimiter fields ++ d.lineterminator

/-- csv.DictReader's row construction: zip the fieldnames with the
parsed values, padding a short row with the restval (modelled ""). -/
def mkRow (fields values : List String) : Row :=
  fields.zip (values ++ List.replicate (fields.length - values.length) "")

/-- csv.DictWriter.writerow: a key of the row that is not among the
writer's fieldnames raises ValueError; otherwise the row's values are
written in fieldnames order, absent fields as the restval "". -/
def writeRow (d : Dialect) (fieldnames : List String) (row : Row) :
    Except CsvhError String :=
  if row.all (fun p => fieldnames.contains p.1) then
    .ok (renderRecord d (fieldnames.map (fun c => (rowGet row c).getD "")))
  else .error .valueError

/-- The streaming loop of csvh.process_csv: for each row, keep_row then
skip_row (short-circuit), then filter_cols, then DictWriter.writerow;
the first error aborts the run, retaining the output written so far. -/
def stream_rows (d : Dialect) (kept_cols : List String)
    (keep_rows skip_rows : List (String × List String)) :
    List Row → List String × Option CsvhError
  | [] => ([], none)
  | r :: rs =>
    match keep_row r keep_rows with
    | .error e => ([], some e)
    | .ok false => stream_rows d kept_cols keep_rows skip_rows rs
    | .ok true =>
      match skip_row r skip_rows with
      | .error e => ([], some e)
      | .ok false => stream_rows d kept_cols keep_rows skip_rows rs
      | .ok true =>
        match filter_cols r kept_cols with
        | .error e => ([], some e)
        | .ok projected =>
          match writeRow d kept_cols projected with
          | .error e => ([], some e)
          | .ok chunk =>
            let rest := stream_rows d kept_cols keep_rows skip_rows rs
            (chunk :: rest.1, rest.2)

/-- The result of a run: the chunks written to the output stream, in
order, and the error that aborted the run, if any. -/
structure ProcResult where
  output : List String
  error : Option CsvhError
deriving DecidableEq

/-- The record lines the csv reader sees after the prolog has been
consumed: the remaining stream, with blank lines skipped as csv.reader
skips them. -/
def csvBody (input : TextStream) (keep_prolog skip_prolog : Nat) : List String :=
  (filter_prolog input keep_prolog skip_prolog).2.filter
    (fun l => stripNewline l != "")

/-- csv.DictReader.fieldnames: the first record of the body, or the
empty list when there is none (the source replaces None with []). -/
def csvFields (d : Dialect) (body : List String) : List String :=
  match body with
  | [] => []
  | h :: _ => parseRecord d h

/-- csvh.process_csv: split the prolog, read the header record with the
input dialect (None fieldnames become the empty list), select columns
(a failure here aborts with nothing written), then write the kept
prolog lines, the header, and the filtered projected rows.  The source
constructs csv.DictWriter without a dialect argument, so the writer
uses the stdlib default dialect (excel); the output_dialect parameter
is never used. -/
def process_csv (input : TextStream) (input_dialect output_dialect : Dialect)
    (keep_prolog skip_prolog : Nat) (keep_cols skip_cols : List String)
    (keep_rows skip_rows : List (String × List String)) : ProcResult :=
  let prolog_lines := (filter_prolog input keep_prolog skip_prolog).1
  let body := csvBody input keep_prolog skip_prolog
  let csv_fields := csvFields input_dialect body
  match read_cols csv_fields keep_cols skip_cols with
  | .error e => { output := [], error := some e }
  | .ok kept_cols =>
    let rows := body.tail.map (fun l => mkRow csv_fields (parseRecord input_dialect l))
    let writer_dialect := excel
    let streamed := stream_rows writer_dialect kept_cols keep_rows skip_rows rows
    { output := prolog_lines ++ renderRecord writer_dialect kept_cols :: streamed.1
      error := streamed.2 }

/-- The admission predicate in the spec's words: every keep filter lists
the row's value at its column, and no skip filter lists the row's value
at its column.  Stated for comparison with the implementation's
keep_row, skip_row and filter_rows. -/
def admits_spec (row : Row) (keep_filters skip_filters : List (String × List String)) : Prop :=
  (∀ p ∈ keep_filters, ∃ v, rowGet row p.1 = some v ∧ v ∈ p.2) ∧
  (∀ p ∈ skip_filters, ∃ v, rowGet row p.1 = some v ∧ v ∉ p.2)

/-- Decidable equality of Except results, for evaluating the embedded
functions on concrete inputs. -/
instance {ε α : Type} [DecidableEq ε] [DecidableEq α] :
    DecidableEq (Except ε α) := fun x y =>
  match x, y with
  | .error a, .error b =>
    if h : a = b then .isTrue (by rw [h])
    else .isFalse (fun hc => h (by injection hc))
  | .error _, .ok _ => .isFalse (fun hc => Except.noConfusion hc)
  | .ok _, .error _ => .isFalse (fun hc => Except.noConfusion hc)
  | .ok a, .ok b =>
    if h : a = b then .isTrue (by rw [h])
    else .isFalse (fun hc => h (by injection hc))


/-- Characterisation of the prolog loop: it always performs exactly n
reads; the kept list (when keep_prolog is truthy) is the first n lines
padded with the empty strings that readline yields past end-of-file,
and the stream advances by n lines. -/
theorem filter_prolog_go_eq (n : Nat) (input : TextStream) (keep_prolog : Nat) :
    filter_prolog_go input keep_prolog n =
      ((if keep_prolog != 0 then
          input.take n ++ List.replicate (n - input.length) "" else []),
        input.drop n) := by
  induction n generalizing input with
  | zero => cases input <;> simp [filter_prolog_go]
  | succ n ih =>
    cases input with
    | nil =>
      simp only [filter_prolog_go, readline]
      rw [ih]
      by_cases hk : keep_prolog = 0 <;> simp [hk, List.replicate_succ]
    | cons l ls =>
      simp only [filter_prolog_go, readline]
      rw [ih]
      by_cases hk : keep_prolog = 0 <;> simp [hk]


/-- C5: on a stream with at least max(keep_count, skip_count) lines,
filter_prolog consumes exactly max(keep_count, skip_count) lines and
returns them in order when keep_count is positive, the empty sequence
otherwise; and with both counts 1 it behaves exactly as keep_count = 1
alone. -/
theorem C5_prolog_consumes_max (input : TextStream) (keep_prolog skip_prolog : Nat)
    (h : max keep_prolog skip_prolog ≤ input.length) :
    filter_prolog input keep_prolog skip_prolog =
      ((if 0 < keep_prolog then input.take (max keep_prolog skip_prolog) else []),
        input.drop (max keep_prolog skip_prolog))
    ∧ (∀ s : TextStream, filter_prolog s 1 1 = filter_prolog s 1 0) := by
  constructor
  · unfold filter_prolog
    rw [filter_prolog_go_eq, Nat.sub_eq_zero_of_le h]
    by_cases hk : keep_prolog = 0 <;> simp [hk, Nat.pos_iff_ne_zero]
  · intro s
    rfl

/-- Witness for C5 at a concrete two-line stream. -/
theorem C5_prolog_consumes_max_witness :
    max 1 0 ≤ (["x\n", "a,b\n"] : TextStream).length ∧
    (filter_prolog ["x\n", "a,b\n"] 1 0 =
      ((if 0 < 1 then (["x\n", "a,b\n"] : TextStream).take (max 1 0) else []),
        (["x\n", "a,b\n"] : TextStream).drop (max 1 0))
      ∧ (∀ s : TextStream, filter_prolog s 1 1 = filter_prolog s 1 0)) :=
  ⟨by decide, C5_prolog_consumes_max ["x\n", "a,b\n"] 1 0 (by decide)⟩

/-- C4 fails as stated: on a one-line stream with keep_count 2 the kept
sequence is the available line followed by an empty string, not exactly
the lines actually available. -/
theorem C4_counterexample :
    filter_prolog ["x\n"] 2 0 = (["x\n", ""], []) ∧
    (["x\n", ""] : List String) ≠ ["x\n"] := by
  exact ⟨rfl, by decide⟩

/-- C4 amended: on a stream with fewer than max(keep_count, skip_count)
lines, filter_prolog consumes the whole stream without error, and the
kept sequence (when keep_count is positive) is the available lines in
order padded with one empty string per missing line; the empty strings
write nothing to the output. -/
theorem C4_short_stream_pads (input : TextStream) (keep_prolog skip_prolog : Nat)
    (h : input.length < max keep_prolog skip_prolog) :
    filter_prolog input keep_prolog skip_prolog =
      ((if 0 < keep_prolog then
          input ++ List.replicate (max keep_prolog skip_prolog - input.length) ""
        else []), []) := by
  unfold filter_prolog
  rw [filter_prolog_go_eq, List.take_of_length_le (le_of_lt h),
    List.drop_eq_nil_of_le (le_of_lt h)]
  by_cases hk : keep_prolog = 0 <;> simp [hk, Nat.pos_iff_ne_zero]

/-- Witness for the amended C4 at a concrete one-line stream. -/
theorem C4_short_stream_pads_witness :
    (["x\n"] : TextStream).length < max 3 0 ∧
    filter_prolog ["x\n"] 3 0 =
      ((if 0 < 3 then
          ["x\n"] ++ List.replicate (max 3 0 - (["x\n"] : TextStream).length) ""
        else []), []) :=
  ⟨by decide, C4_short_stream_pads ["x\n"] 3 0 (by decide)⟩


/-- The precondition loop finds nothing exactly when every listed
column occurs among the input columns. -/
theorem findAbsentFrom_eq_none_iff (H cs : List String) (i : Nat) :
    findAbsentFrom H i cs = none ↔ ∀ c ∈ cs, c ∈ H := by
  induction cs generalizing i with
  | nil => simp [findAbsentFrom]
  | cons c cs ih =>
    by_cases hc : H.contains c
    · have hcm : c ∈ H := by simpa using hc
      simp [findAbsentFrom, hc, ih, hcm]
    · have hcm : c ∉ H := by simpa using hc
      simp [findAbsentFrom, hc, hcm]

/-- What the precondition loop reports: an index at or past the start
offset, holding the reported column, which is absent from the input
columns. -/
theorem findAbsentFrom_eq_some (H cs : List String) (i : Nat) (p : Nat × String)
    (h : findAbsentFrom H i cs = some p) :
    i ≤ p.1 ∧ cs.get? (p.1 - i) = some p.2 ∧ p.2 ∉ H := by
  induction cs generalizing i with
  | nil => simp [findAbsentFrom] at h
  | cons c cs ih =>
    by_cases hc : H.contains c
    · rw [findAbsentFrom, if_pos hc] at h
      obtain ⟨h1, h2, h3⟩ := ih (i + 1) h
      refine ⟨by omega, ?_, h3⟩
      have hi : p.1 - i = (p.1 - (i + 1)) + 1 := by omega
      rw [hi]
      simpa using h2
    · rw [findAbsentFrom, if_neg hc] at h
      cases h
      refine ⟨Nat.le_refl _, by simp, by simpa using hc⟩

/-- C6: with both selection lists empty, read_cols returns the header
unchanged; with a non-empty keep list whose names all occur in the
header (and no skip list), it returns the header entries that are
members of the keep list, in the header's order. -/
theorem C6_header_order (H keep_cols : List String) :
    read_cols H [] [] = .ok H ∧
    (keep_cols ≠ [] → (∀ c ∈ keep_cols, c ∈ H) →
      read_cols H keep_cols [] =
        .ok (H.filter (fun c => keep_cols.contains c))) := by
  constructor
  · simp [read_cols, findAbsentFrom]
  · intro hne hmem
    unfold read_cols
    rw [(findAbsentFrom_eq_none_iff H keep_cols 0).mpr hmem]
    simp [findAbsentFrom, hne]

/-- Witness for C6: header a b c d with keep list c a selects a c, in
header order rather than keep order. -/
theorem C6_header_order_witness :
    (["c", "a"] : List String) ≠ [] ∧
    (∀ c ∈ (["c", "a"] : List String), c ∈ (["a", "b", "c", "d"] : List String)) ∧
    read_cols ["a", "b", "c", "d"] ["c", "a"] [] =
      .ok ((["a", "b", "c", "d"] : List String).filter
        (fun c => List.contains ["c", "a"] c)) ∧
    (["a", "b", "c", "d"] : List String).filter
        (fun c => List.contains ["c", "a"] c) = ["a", "c"] :=
  ⟨by decide, by decide, (C6_header_order _ _).2 (by decide) (by decide), by decide⟩

/-- C1 fails as stated: with keep list a c, the result changes when the
skip list c is also supplied, so skip_cols is not ignored. -/
theorem C1_counterexample :
    read_cols ["a", "b", "c", "d"] ["a", "c"] ["c"] = .ok ["a"] ∧
    read_cols ["a", "b", "c", "d"] ["a", "c"] [] = .ok ["a", "c"] ∧
    (Except.ok ["a"] : Except CsvhError (List String)) ≠ .ok ["a", "c"] :=
  ⟨rfl, rfl, by decide⟩

/-- C1 amended: when keep_cols is non-empty (and all referenced names
occur in the header), skip_cols is applied as well: the result is the
header filtered to keep_cols membership with skip_cols members then
removed. -/
theorem C1_skip_also_applies (H keep_cols skip_cols : List String)
    (hk : keep_cols ≠ []) (hmk : ∀ c ∈ keep_cols, c ∈ H)
    (hms : ∀ c ∈ skip_cols, c ∈ H) :
    read_cols H keep_cols skip_cols =
      .ok ((H.filter (fun c => keep_cols.contains c)).filter
        (fun c => !skip_cols.contains c)) := by
  unfold read_cols
  rw [(findAbsentFrom_eq_none_iff H keep_cols 0).mpr hmk,
    (findAbsentFrom_eq_none_iff H skip_cols 0).mpr hms]
  by_cases hs : skip_cols = []
  · subst hs
    simp [hk]
  · simp [hk, hs]

/-- Witness for the amended C1, matching the repository's own test at
src/tests/test_csvh.py line 110. -/
theorem C1_skip_also_applies_witness :
    (["a", "c"] : List String) ≠ [] ∧
    (∀ c ∈ (["a", "c"] : List String), c ∈ (["a", "b", "c", "d"] : List String)) ∧
    (∀ c ∈ (["c"] : List String), c ∈ (["a", "b", "c", "d"] : List String)) ∧
    read_cols ["a", "b", "c", "d"] ["a", "c"] ["c"] =
      .ok (((["a", "b", "c", "d"] : List String).filter
          (fun c => List.contains ["a", "c"] c)).filter
        (fun c => !List.contains ["c"] c)) :=
  ⟨by decide, by decide, by decide,
    C1_skip_also_applies _ _ _ (by decide) (by decide) (by decide)⟩


/-- C8: read_cols fails exactly when some keep or skip name is absent
from the header; the raised error carries the offending column and its
index in the offending list; every read_cols failure is such an error;
and in process_csv a read_cols failure aborts before anything at all is
written to the output. -/
theorem C8_unknown_column_eager (H keep_cols skip_cols : List String) :
    ((∃ e, read_cols H keep_cols skip_cols = .error e) ↔
      ((∃ c ∈ keep_cols, c ∉ H) ∨ (∃ c ∈ skip_cols, c ∉ H)))
    ∧ (∀ b i c, read_cols H keep_cols skip_cols = .error (.unknownColumn b i c) →
        (if b then keep_cols else skip_cols).get? i = some c ∧ c ∉ H)
    ∧ (∀ e, read_cols H keep_cols skip_cols = .error e →
        ∃ b i c, e = .unknownColumn b i c)
    ∧ (∀ (input : TextStream) (d1 d2 : Dialect) (kp sp : Nat)
        (kr sr : List (String × List String)) (e : CsvhError),
        read_cols (csvFields d1 (csvBody input kp sp)) keep_cols skip_cols
            = .error e →
        process_csv input d1 d2 kp sp keep_cols skip_cols kr sr =
          { output := [], error := some e }) := by
  refine ⟨?_, ?_, ?_, ?_⟩
  · unfold read_cols
    rcases hk : findAbsentFrom H 0 keep_cols with _ | p
    · rcases hs : findAbsentFrom H 0 skip_cols with _ | q
      · constructor
        · rintro ⟨e, he⟩
          simp at he
        · rintro (⟨c, hc, hcH⟩ | ⟨c, hc, hcH⟩)
          · exact absurd ((findAbsentFrom_eq_none_iff H keep_cols 0).mp hk c hc) hcH
          · exact absurd ((findAbsentFrom_eq_none_iff H skip_cols 0).mp hs c hc) hcH
      · obtain ⟨_, hget, hnot⟩ := findAbsentFrom_eq_some H skip_cols 0 q hs
        refine ⟨fun _ => Or.inr ⟨q.2, ?_, hnot⟩, fun _ => ⟨_, rfl⟩⟩
        exact List.get?_mem (by simpa using hget)
    · obtain ⟨_, hget, hnot⟩ := findAbsentFrom_eq_some H keep_cols 0 p hk
      refine ⟨fun _ => Or.inl ⟨p.2, ?_, hnot⟩, fun _ => ⟨_, rfl⟩⟩
      exact List.get?_mem (by simpa using hget)
  · intro b i c he
    unfold read_cols at he
    rcases hk : findAbsentFrom H 0 keep_cols with _ | p <;> rw [hk] at he
    · rcases hs : findAbsentFrom H 0 skip_cols with _ | q <;> rw [hs] at he
      · simp at he
      · obtain ⟨_, hget, hnot⟩ := findAbsentFrom_eq_some H skip_cols 0 q hs
        obtain ⟨hb, hi, hc⟩ : false = b ∧ q.1 = i ∧ q.2 = c := by
          injection he with he2
          injection he2 with h1 h2 h3
          exact ⟨h1, h2, h3⟩
        subst hb; subst hi; subst hc
        exact ⟨by simpa using hget, hnot⟩
    · obtain ⟨_, hget, hnot⟩ := findAbsentFrom_eq_some H keep_cols 0 p hk
      obtain ⟨hb, hi, hc⟩ : true = b ∧ p.1 = i ∧ p.2 = c := by
        injection he with he2
        injection he2 with h1 h2 h3
        exact ⟨h1, h2, h3⟩
      subst hb; subst hi; subst hc
      exact ⟨by simpa using hget, hnot⟩
  · intro e he
    unfold read_cols at he
    rcases hk : findAbsentFrom H 0 keep_cols with _ | p <;> rw [hk] at he
    · rcases hs : findAbsentFrom H 0 skip_cols with _ | q <;> rw [hs] at he
      · simp at he
      · exact ⟨false, q.1, q.2, by injection he with h2; exact h2.symm⟩
    · exact ⟨true, p.1, p.2, by injection he with h2; exact h2.symm⟩
  · intro input d1 d2 kp sp kr sr e he
    simp only [process_csv]
    rw [he]

/-- Witness for C8 at a concrete header and keep list with an absent
name. -/
theorem C8_unknown_column_eager_witness :
    ((∃ e, read_cols ["a", "b"] ["x"] [] = .error e) ↔
      ((∃ c ∈ (["x"] : List String), c ∉ (["a", "b"] : List String)) ∨
        (∃ c ∈ ([] : List String), c ∉ (["a", "b"] : List String)))) ∧
    read_cols ["a", "b"] ["x"] [] = .error (.unknownColumn true 0 "x") ∧
    process_csv ["a,b\n", "1,2\n"] excel excel 0 0 ["x"] [] [] [] =
      { output := [], error := some (.unknownColumn true 0 "x") } := by
  refine ⟨(C8_unknown_column_eager ["a", "b"] ["x"] []).1, rfl, ?_⟩
  exact (C8_unknown_column_eager ["a", "b"] ["x"] []).2.2.2
    ["a,b\n", "1,2\n"] excel excel 0 0 [] [] _ rfl


/-- keep_row never raises when every filter column is present in the
row: it returns a boolean. -/
theorem keep_row_isOk (row : Row) (kr : List (String × List String))
    (h : ∀ p ∈ kr, (rowGet row p.1).isSome) :
    keep_row row kr = .ok true ∨ keep_row row kr = .ok false := by
  induction kr with
  | nil => simp [keep_row]
  | cons p rest ih =>
    obtain ⟨c, values⟩ := p
    obtain ⟨v, hv⟩ := Option.isSome_iff_exists.mp (h _ (List.mem_cons_self _ _))
    rw [keep_row, hv]
    dsimp only
    by_cases hmem : values.contains v
    · rw [if_pos hmem]
      exact ih (fun q hq => h q (List.mem_cons_of_mem _ hq))
    · rw [if_neg hmem]
      exact Or.inr rfl

/-- skip_row never raises when every filter column is present in the
row: it returns a boolean. -/
theorem skip_row_isOk (row : Row) (sr : List (String × List String))
    (h : ∀ p ∈ sr, (rowGet row p.1).isSome) :
    skip_row row sr = .ok true ∨ skip_row row sr = .ok false := by
  induction sr with
  | nil => simp [skip_row]
  | cons p rest ih =>
    obtain ⟨c, values⟩ := p
    obtain ⟨v, hv⟩ := Option.isSome_iff_exists.mp (h _ (List.mem_cons_self _ _))
    rw [skip_row, hv]
    dsimp only
    by_cases hmem : values.contains v
    · rw [if_pos hmem]
      exact Or.inr rfl
    · rw [if_neg hmem]
      exact ih (fun q hq => h q (List.mem_cons_of_mem _ hq))

/-- keep_row returns True exactly when every keep filter lists the
row's value at its column. -/
theorem keep_row_ok_true_iff (row : Row) (kr : List (String × List String))
    (h : ∀ p ∈ kr, (rowGet row p.1).isSome) :
    keep_row row kr = .ok true ↔
      ∀ p ∈ kr, ∃ v, rowGet row p.1 = some v ∧ v ∈ p.2 := by
  induction kr with
  | nil => simp [keep_row]
  | cons p rest ih =>
    obtain ⟨c, values⟩ := p
    obtain ⟨v, hv⟩ := Option.isSome_iff_exists.mp (h _ (List.mem_cons_self _ _))
    rw [keep_row, hv]
    dsimp only
    by_cases hmem : values.contains v
    · rw [if_pos hmem, ih (fun q hq => h q (List.mem_cons_of_mem _ hq))]
      constructor
      · intro hall q hq
        rcases List.mem_cons.mp hq with hq1 | hq2
        · subst hq1
          exact ⟨v, hv, by simpa using hmem⟩
        · exact hall q hq2
      · intro hall q hq
        exact hall q (List.mem_cons_of_mem _ hq)
    · rw [if_neg hmem]
      constructor
      · intro hfalse
        simp at hfalse
      · intro hall
        obtain ⟨w, hw, hwmem⟩ := hall (c, values) (List.mem_cons_self _ _)
        rw [hv] at hw
        injection hw with hw2
        subst hw2
        exact absurd (by simpa using hwmem) hmem
  
/-- skip_row returns True exactly when no skip filter lists the row's
value at its column. -/
theorem skip_row_ok_true_iff (row : Row) (sr : List (String × List String))
    (h : ∀ p ∈ sr, (rowGet row p.1).isSome) :
    skip_row row sr = .ok true ↔
      ∀ p ∈ sr, ∃ v, rowGet row p.1 = some v ∧ v ∉ p.2 := by
  induction sr with
  | nil => simp [skip_row]
  | cons p rest ih =>
    obtain ⟨c, values⟩ := p
    obtain ⟨v, hv⟩ := Option.isSome_iff_exists.mp (h _ (List.mem_cons_self _ _))
    rw [skip_row, hv]
    dsimp only
    by_cases hmem : values.contains v
    · rw [if_pos hmem]
      constructor
      · intro hfalse
        simp at hfalse
      · intro hall
        obtain ⟨w, hw, hwmem⟩ := hall (c, values) (List.mem_cons_self _ _)
        rw [hv] at hw
        injection hw with hw2
        subst hw2
        exact absurd (by simpa using hmem) hwmem
    · rw [if_neg hmem, ih (fun q hq => h q (List.mem_cons_of_mem _ hq))]
      constructor
      · intro hall q hq
        rcases List.mem_cons.mp hq with hq1 | hq2
        · subst hq1
          exact ⟨v, hv, by simpa using hmem⟩
        · exact hall q hq2
      · intro hall q hq
        exact hall q (List.mem_cons_of_mem _ hq)

/-- C7: provided every filter column is present in the row, the row is
admitted (survives filter_rows) exactly when every keep filter lists
the row's value at its column and no skip filter lists the row's value
at its column; with both filter mappings empty every row is admitted. -/
theorem C7_row_admission (row : Row) (kr sr : List (String × List String))
    (hk : ∀ p ∈ kr, (rowGet row p.1).isSome)
    (hs : ∀ p ∈ sr, (rowGet row p.1).isSome) :
    (filter_rows [row] kr sr = .ok [row] ↔ admits_spec row kr sr)
    ∧ filter_rows [row] [] [] = .ok [row] := by
  constructor
  · rcases keep_row_isOk row kr hk with hkr | hkr
    · rcases skip_row_isOk row sr hs with hsr | hsr
      · rw [filter_rows, hkr, hsr]
        refine iff_of_true (by simp [filter_rows, Except.map]) ?_
        exact ⟨(keep_row_ok_true_iff row kr hk).mp hkr,
          (skip_row_ok_true_iff row sr hs).mp hsr⟩
      · rw [filter_rows, hkr, hsr]
        refine iff_of_false (by simp [filter_rows]) ?_
        intro hadm
        have : skip_row row sr = .ok true :=
          (skip_row_ok_true_iff row sr hs).mpr hadm.2
        rw [this] at hsr
        simp at hsr
    · rw [filter_rows, hkr]
      refine iff_of_false (by simp [filter_rows]) ?_
      intro hadm
      have : keep_row row kr = .ok true :=
        (keep_row_ok_true_iff row kr hk).mpr hadm.1
      rw [this] at hkr
      simp at hkr
  · rfl

/-- Witness for C7 at the spec's own example row and filters. -/
theorem C7_row_admission_witness :
    (∀ p ∈ ([("a", ["a1", "a2"])] : List (String × List String)),
      (rowGet [("a", "a2"), ("b", "b2")] p.1).isSome) ∧
    (∀ p ∈ ([("b", ["b2", "b4"])] : List (String × List String)),
      (rowGet [("a", "a2"), ("b", "b2")] p.1).isSome) ∧
    ((filter_rows [[("a", "a2"), ("b", "b2")]]
          [("a", ["a1", "a2"])] [("b", ["b2", "b4"])]
        = .ok [[("a", "a2"), ("b", "b2")]] ↔
      admits_spec [("a", "a2"), ("b", "b2")]
        [("a", ["a1", "a2"])] [("b", ["b2", "b4"])])
      ∧ filter_rows [[("a", "a2"), ("b", "b2")]] [] []
          = .ok [[("a", "a2"), ("b", "b2")]]) :=
  ⟨by decide, by decide, C7_row_admission _ _ _ (by decide) (by decide)⟩


/-- C9 fails as stated: quoting QUOTE_MINIMAL (0) explicitly provided
over the unix base dialect (QUOTE_ALL, 1) is not applied, because the
source tests Python truthiness rather than presence; the base value 1
survives. -/
theorem C9_counterexample :
    read_dialect unix_dialect none (some 0) none none = unix_dialect ∧
    unix_dialect.quoting = 1 ∧ (1 : Nat) ≠ 0 :=
  ⟨rfl, rfl, by decide⟩

/-- C9 amended: each override is applied independently iff it is truthy
(provided and non-empty / nonzero); otherwise, and for the fields that
take no override at all, the base dialect's value is retained. -/
theorem C9_truthy_overrides (base : Dialect) (delimiter : Option String)
    (quoting : Option Nat) (quotechar escapechar : Option String) :
    (read_dialect base delimiter quoting quotechar escapechar).delimiter =
      (if optStrTruthy delimiter then delimiter.getD "" else base.delimiter) ∧
    (read_dialect base delimiter quoting quotechar escapechar).quoting =
      (if optNatTruthy quoting then quoting.getD 0 else base.quoting) ∧
    (read_dialect base delimiter quoting quotechar escapechar).quotechar =
      (if optStrTruthy quotechar then some (quotechar.getD "") else base.quotechar) ∧
    (read_dialect base delimiter quoting quotechar escapechar).escapechar =
      (if optStrTruthy escapechar then some (escapechar.getD "") else base.escapechar) ∧
    (read_dialect base delimiter quoting quotechar escapechar).lineterminator =
      base.lineterminator ∧
    (read_dialect base delimiter quoting quotechar escapechar).doublequote =
      base.doublequote ∧
    (read_dialect base delimiter quoting quotechar escapechar).skipinitialspace =
      base.skipinitialspace := by
  unfold read_dialect
  by_cases h1 : optStrTruthy delimiter <;> by_cases h2 : optNatTruthy quoting <;>
    by_cases h3 : optStrTruthy quotechar <;> by_cases h4 : optStrTruthy escapechar <;>
      simp [h1, h2, h3, h4]

/-- C3 fails on the code: the result of process_csv is entirely
independent of the output dialect argument (the source never passes it
to the writer), and concretely an excel_tab output dialect still
produces comma-delimited excel output with CRLF terminators. -/
theorem C3_output_dialect_unused :
    (∀ (input : TextStream) (d1 d2 d3 : Dialect) (kp sp : Nat)
        (kc sc : List String) (kr sr : List (String × List String)),
      process_csv input d1 d2 kp sp kc sc kr sr =
        process_csv input d1 d3 kp sp kc sc kr sr) ∧
    process_csv ["a,b\n", "1,2\n"] excel excel_tab 0 0 [] [] [] [] =
      { output := ["a,b\r\n", "1,2\r\n"], error := none } :=
  ⟨fun _ _ _ _ _ _ _ _ _ _ => rfl, by decide⟩

/-- C2 fails as stated: with a keep_rows filter naming column x absent
from the header a,b, the run still writes the header before failing at
the first data row, so a configuration error does produce partial
output. -/
theorem C2_counterexample :
    process_csv ["a,b\n", "1,2\n"] excel excel 0 0 [] [] [("x", ["1"])] [] =
      { output := ["a,b\r\n"], error := some (.missingField "x") } ∧
    (["a,b\r\n"] : List String) ≠ [] :=
  ⟨by decide, by decide⟩

/-- Looking up a column absent from the fieldnames in a DictReader row
yields nothing (Python raises KeyError at the access). -/
theorem rowGet_mkRow_of_not_mem (fields values : List String) (c : String)
    (h : c ∉ fields) : rowGet (mkRow fields values) c = none := by
  have hfind : (mkRow fields values).find? (fun p => p.1 == c) = none := by
    rw [List.find?_eq_none]
    rintro ⟨a, b⟩ hab hbeq
    have ha : a ∈ fields := (List.of_mem_zip (by simpa [mkRow] using hab)).1
    have hac : a = c := by simpa using hbeq
    exact h (hac ▸ ha)
  unfold rowGet
  rw [hfind]
  rfl

/-- C2 amended: the row filters are not validated against the header
before streaming; when the first keep filter names a column absent from
the header and at least one data row follows the header, the run still
writes the kept prolog lines and the header record, and only then fails
with the missing-field error from the first data row. -/
theorem C2_filters_not_validated_eagerly
    (input : TextStream) (d1 d3 : Dialect) (kp sp : Nat)
    (keep_cols skip_cols kept : List String) (c : String) (vs : List String)
    (kr sr : List (String × List String))
    (hbody : ∃ hline r rs, csvBody input kp sp = hline :: r :: rs)
    (hcols : read_cols (csvFields d1 (csvBody input kp sp)) keep_cols skip_cols
      = .ok kept)
    (hc : c ∉ csvFields d1 (csvBody input kp sp)) :
    process_csv input d1 d3 kp sp keep_cols skip_cols ((c, vs) :: kr) sr =
      { output := (filter_prolog input kp sp).1 ++ [renderRecord excel kept]
        error := some (.missingField c) } := by
  obtain ⟨hline, r, rs, hb⟩ := hbody
  rw [hb] at hcols hc
  simp only [process_csv]
  rw [hb, hcols]
  have hget := rowGet_mkRow_of_not_mem (csvFields d1 (hline :: r :: rs))
    (parseRecord d1 r) c hc
  simp [stream_rows, keep_row, hget, csvFields] at *

/-- Witness for the amended C2 at a concrete run: header a,b with one
data row, keep filter on the absent column x. -/
theorem C2_filters_not_validated_eagerly_witness :
    (∃ hline r rs, csvBody ["a,b\n", "1,2\n"] 0 0 = hline :: r :: rs) ∧
    read_cols (csvFields excel (csvBody ["a,b\n", "1,2\n"] 0 0)) [] []
      = .ok ["a", "b"] ∧
    "x" ∉ csvFields excel (csvBody ["a,b\n", "1,2\n"] 0 0) ∧
    process_csv ["a,b\n", "1,2\n"] excel excel 0 0 [] [] [("x", ["1"])] [] =
      { output := (filter_prolog ["a,b\n", "1,2\n"] 0 0).1
          ++ [renderRecord excel ["a", "b"]]
        error := some (.missingField "x") } :=
  ⟨⟨"a,b\n", "1,2\n", [], rfl⟩, rfl, by decide,
    C2_filters_not_validated_eagerly ["a,b\n", "1,2\n"] excel excel 0 0 [] []
      ["a", "b"] "x" ["1"] [] [] ⟨"a,b\n", "1,2\n", [], rfl⟩ rfl (by decide)⟩

/-- C10: when the parser yields no header row after the prolog, the run
does not fail: it writes the kept prolog lines followed by an empty
header record (just the writer's line terminator) and no data rows. -/
theorem C10_no_header (input : TextStream) (d1 d3 : Dialect) (kp sp : Nat)
    (kr sr : List (String × List String))
    (hbody : csvBody input kp sp = []) :
    (process_csv input d1 d3 kp sp [] [] kr sr =
      { output := (filter_prolog input kp sp).1 ++ [renderRecord excel []]
        error := none }) ∧
    renderRecord excel [] = "\r\n" := by
  constructor
  · simp only [process_csv]
    rw [hbody]
    simp [csvFields, read_cols, findAbsentFrom, stream_rows]
  · rfl

/-- Witness for C10: a one-line stream entirely consumed as kept
prolog, leaving no CSV content. -/
theorem C10_no_header_witness :
    csvBody ["junk\n"] 1 0 = [] ∧
    (process_csv ["junk\n"] excel excel 1 0 [] [] [] [] =
      { output := (filter_prolog ["junk\n"] 1 0).1 ++ [renderRecord excel []]
        error := none }) ∧
    renderRecord excel [] = "\r\n" :=
  ⟨rfl, (C10_no_header ["junk\n"] excel excel 1 0 [] [] rfl).1,
    (C10_no_header ["junk\n"] excel excel 1 0 [] [] rfl).2⟩

end Csvh
